import Mathlib

/-!
Shallow embedding of `src/git/log.rs` (commit-log parsing and query
functions). Rust strings are modelled as `List Char`; the external
`run_git` subprocess boundary (declared in `src/git/mod.rs` as an external
collaborator) is modelled as an injectable function from an argument list
to either captured output text or a failure, matching the spec's invoker
contract. Rust's `Result<T>` becomes `Except String T`.
-/

/-- Model of `const SEPARATOR: char = '\x1f'` (log.rs line 18). -/
def SEPARATOR : Char := Char.ofNat 31

/-- The graph glyph test from `split_graph_and_data` (log.rs line 87):
`c == '*' || c == '|' || c == '/' || c == '\\' || c == ' ' || c == '_'`. -/
def isGraphChar (c : Char) : Bool :=
  c == '*' || c == '|' || c == '/' || c == '\\' || c == ' ' || c == '_'

/-- Model of `split_graph_and_data` (log.rs lines 80-94). The Rust code
advances a byte index over leading glyph bytes and slices there; since every
glyph is a single ASCII byte and the first byte of any multi-byte character
matches none of them, the loop always stops on a character boundary, so the
byte loop coincides with a character-level `takeWhile` / `dropWhile`. -/
def split_graph_and_data (line : List Char) : List Char × List Char :=
  (line.takeWhile isGraphChar, line.dropWhile isGraphChar)

/-- Rust `str::split(sep)` on a single-character pattern: the list of
(possibly empty) segments between occurrences of the separator; the empty
input gives one empty segment, as in Rust. Generalised over a predicate so
it also serves `split(char::is_whitespace)`. -/
def splitByP (p : Char → Bool) : List Char → List (List Char)
  | [] => [[]]
  | c :: rest =>
    match splitByP p rest with
    | [] => [[c]]
    | h :: t => if p c then [] :: h :: t else (c :: h) :: t

/-- Rust `char::is_whitespace`: the Unicode White_Space code points. -/
def whitespaceCodes : List Nat :=
  [9, 10, 11, 12, 13, 32, 0x85, 0xA0, 0x1680,
   0x2000, 0x2001, 0x2002, 0x2003, 0x2004, 0x2005, 0x2006, 0x2007,
   0x2008, 0x2009, 0x200A, 0x2028, 0x2029, 0x202F, 0x205F, 0x3000]

/-- Whether a character is Rust whitespace. -/
def rustIsWhitespace (c : Char) : Bool := whitespaceCodes.contains c.toNat

/-- Rust `str::split_whitespace` (log.rs line 60): split on whitespace and
keep only the non-empty segments (Rust documents `split_whitespace` as
`split(char::is_whitespace)` with empty substrings filtered out). -/
def splitWhitespace (l : List Char) : List (List Char) :=
  (splitByP rustIsWhitespace l).filter (fun w => !w.isEmpty)

/-- Strip one trailing carriage return, as `str::lines` does for segments
that ended in a newline. -/
def stripCR (l : List Char) : List Char :=
  if l.getLast? = some '\r' then l.dropLast else l

/-- Rust `str::lines` (log.rs line 45): split on `'\n'`; a final line
ending is optional (a trailing empty segment is dropped), and each line that
was terminated by `'\n'` loses one trailing `'\r'`. The last segment is kept
verbatim when the input does not end in a newline. -/
def rustLines (s : List Char) : List (List Char) :=
  let parts := splitByP (fun c => c == '\n') s
  parts.dropLast.map stripCR ++
    (match parts.getLast? with
     | some [] => []
     | some l => [l]
     | none => [])

/-- Model of `struct CommitEntry` (log.rs lines 4-15). -/
structure CommitEntry where
  hash : List Char
  short_hash : List Char
  message : List Char
  author : List Char
  date : List Char
  date_iso : List Char
  parents : List (List Char)
  refs : List Char
  graph : List Char
deriving DecidableEq

/-- The delimiter-separated fields of one line's data segment:
`data.split(SEPARATOR).collect()` (log.rs line 54) applied to
`split_graph_and_data(line).1`. -/
def lineParts (line : List Char) : List (List Char) :=
  splitByP (fun c => c == SEPARATOR) (split_graph_and_data line).2

/-- The record built from a line's fields (log.rs lines 64-74): `parts[i]`
is in range whenever this is used, so `getD i []` coincides with Rust's
indexing. -/
def mkEntry (line : List Char) : CommitEntry :=
  { hash := (lineParts line).getD 0 []
  , short_hash := (lineParts line).getD 1 []
  , message := (lineParts line).getD 2 []
  , author := (lineParts line).getD 3 []
  , date := (lineParts line).getD 4 []
  , date_iso := (lineParts line).getD 5 []
  , parents := splitWhitespace ((lineParts line).getD 6 [])
  , refs := (lineParts line).getD 7 []
  , graph := (split_graph_and_data line).1 }

/-- One iteration of the parsing loop in `parse_log_output` (log.rs lines
45-75): `none` on the two `continue` branches (empty data segment, fewer
than 8 fields), otherwise the pushed record. -/
def parseLine (line : List Char) : Option CommitEntry :=
  if (split_graph_and_data line).2.isEmpty then none
  else if (lineParts line).length < 8 then none
  else some (mkEntry line)

/-- Model of `parse_log_output` (log.rs lines 42-78): the loop pushing one
record per successfully parsed line, in input order, is a `filterMap` over
the lines. -/
def parse_log_output (output : List Char) : List CommitEntry :=
  (rustLines output).filterMap parseLine

/-- The external invoker boundary (`run_git` from `src/git/runner.rs`,
declared out of scope by the spec): an argument list goes to either
captured stdout text or a failure message. Query functions take it as a
parameter so they can be analysed for every possible external output. -/
def Invoker : Type := List String → Except String (List Char)

/-- The separator as a one-character string, for building `LOG_FORMAT`. -/
def sepStr : String := String.mk [SEPARATOR]

/-- Model of `LOG_FORMAT` (log.rs line 17):
`"%H\x1f%h\x1f%s\x1f%an\x1f%ar\x1f%aI\x1f%P\x1f%D"`. -/
def LOG_FORMAT : String :=
  "%H" ++ sepStr ++ "%h" ++ sepStr ++ "%s" ++ sepStr ++ "%an" ++ sepStr ++
    "%ar" ++ sepStr ++ "%aI" ++ sepStr ++ "%P" ++ sepStr ++ "%D"

/-- Model of `get_log` (log.rs lines 21-35). -/
def get_log (run_git : Invoker) (count skip : Nat) (branch : Option String) :
    Except String (List CommitEntry) :=
  let count_str := "-" ++ toString count
  let skip_str := "--skip=" ++ toString skip
  let format_str := "--format=" ++ LOG_FORMAT
  let args := ["log", count_str, skip_str, format_str, "--graph"]
  let args2 := match branch with
    | some b => args ++ [b]
    | none => args
  match run_git args2 with
  | Except.error e => Except.error e
  | Except.ok output => Except.ok (parse_log_output output)

/-- Model of `get_recent_commits` (log.rs lines 38-40). -/
def get_recent_commits (run_git : Invoker) (count : Nat) :
    Except String (List CommitEntry) :=
  get_log run_git count 0 none

/-- Decimal digits accumulated left to right; `none` on a non-digit.
Models the digit loop of Rust integer `from_str`. -/
def digitsValAux : List Char → Nat → Option Nat
  | [], acc => some acc
  | c :: rest, acc =>
    if c.isDigit then digitsValAux rest (acc * 10 + (c.toNat - 48))
    else none

/-- Model of Rust `str::parse::<usize>()` (log.rs line 99): an optional
leading `'+'`, then one or more ASCII digits, failing on overflow past
`usize::MAX` (64-bit). -/
def parseUsize (l : List Char) : Option Nat :=
  let l2 := match l with
    | '+' :: rest => rest
    | x => x
  match l2 with
  | [] => none
  | _ =>
    match digitsValAux l2 0 with
    | some v => if v < 2 ^ 64 then some v else none
    | none => none

/-- Rust `str::trim` (log.rs line 99): drop leading and trailing
whitespace. -/
def rustTrim (l : List Char) : List Char :=
  ((l.dropWhile rustIsWhitespace).reverse.dropWhile rustIsWhitespace).reverse

/-- Model of `commit_count` (log.rs lines 97-100):
`run_git(["rev-list", "--count", "HEAD"])?` then
`output.trim().parse().unwrap_or(0)`. -/
def commit_count (run_git : Invoker) : Except String Nat :=
  match run_git ["rev-list", "--count", "HEAD"] with
  | Except.error e => Except.error e
  | Except.ok output => Except.ok ((parseUsize (rustTrim output)).getD 0)

/-- Model of `search_commits` (log.rs lines 103-110). -/
def search_commits (run_git : Invoker) (query : String) (count : Nat) :
    Except String (List CommitEntry) :=
  let count_str := "-" ++ toString count
  let format_str := "--format=" ++ LOG_FORMAT
  let grep_str := "--grep=" ++ query
  match run_git ["log", count_str, format_str, grep_str, "-i"] with
  | Except.error e => Except.error e
  | Except.ok output => Except.ok (parse_log_output output)

/-- Substring containment: `needle` occurs contiguously in `hay`. -/
def listIsInfixOf (needle : List Char) : List Char → Bool
  | [] => needle.isEmpty
  | c :: rest => needle.isPrefixOf (c :: rest) || listIsInfixOf needle rest

/-- Case-insensitive substring containment, the spec's notion used by the
search claim: lower-case both strings and test infix containment. -/
def containsCI (hay needle : List Char) : Bool :=
  listIsInfixOf (needle.map Char.toLower) (hay.map Char.toLower)

-- Helper lemmas

/-- A list all of whose characters satisfy `p` has an empty `dropWhile p`. -/
theorem dropWhile_eq_nil_of_all {p : Char → Bool} {l : List Char}
    (h : l.all p = true) : l.dropWhile p = [] := by
  induction l with
  | nil => rfl
  | cons c rest ih =>
    simp only [List.all_cons, Bool.and_eq_true] at h
    simp [List.dropWhile_cons, h.1, ih h.2]

/-- A successful `parseLine` returns exactly the record assembled from the
line's fields. -/
theorem parseLine_some_eq {line : List Char} {e : CommitEntry}
    (h : parseLine line = some e) : e = mkEntry line := by
  by_cases h1 : (split_graph_and_data line).2.isEmpty = true
  · simp [parseLine, h1] at h
  · by_cases h2 : (lineParts line).length < 8
    · simp [parseLine, h1, h2] at h
    · simp [parseLine, h1, h2] at h
      exact h.symm

/-- Every character kept by `takeWhile p` satisfies `p`. -/
theorem takeWhile_all {p : Char → Bool} (l : List Char) :
    (l.takeWhile p).all p = true := by
  induction l with
  | nil => rfl
  | cons c rest ih =>
    by_cases h : p c = true <;> simp [List.takeWhile_cons, h, ih]

/-- The first character surviving `dropWhile p`, if any, fails `p`. -/
theorem dropWhile_head_not {p : Char → Bool} (l : List Char) :
    ((l.dropWhile p).take 1).all (fun c => !p c) = true := by
  induction l with
  | nil => rfl
  | cons c rest ih =>
    by_cases h : p c = true <;> simp [List.dropWhile_cons, h, ih]

-- Concrete fixtures

/-- The sample line of `test_parse_log_output` (log.rs lines 116-126). -/
def sampleInput : List Char :=
  "* abc123def456abc123def456abc123def456abc123\x1fabc123d\x1ffeat: add login\x1fJohn\x1f2 hours ago\x1f2026-02-10T10:00:00+05:30\x1f\x1fHEAD -> main\n".data

/-- An invoker that always succeeds with the sample output. -/
def constInvoker : Invoker := fun _ => Except.ok sampleInput

/-- An invoker that always reports a process-level failure. -/
def failInvoker : Invoker := fun _ => Except.error "fatal: not a git repository"

/-- An 8-field line whose message is "hello" and does not mention any
search query; used to probe `search_commits` filtering. -/
def unfilteredOutput : List Char :=
  "h1\x1fh\x1fhello\x1fau\x1fd\x1fdi\x1f\x1frefs".data

/-- An invoker returning `unfilteredOutput` regardless of arguments. -/
def mockInvoker : Invoker := fun _ => Except.ok unfilteredOutput

/-- An 8-field line whose second field "QQ" is not a prefix of its first
field "Z". -/
def prefixViolatingOutput : List Char :=
  "Z\x1fQQ\x1fm\x1fau\x1fd\x1fdi\x1f\x1frefs".data

/-- A line with an empty 7th (parents) field. -/
def lineParents0 : List Char :=
  "h1\x1fh\x1fmsg\x1fau\x1fd\x1fdi\x1f\x1frefs".data

/-- A line whose 7th (parents) field is "a b". -/
def lineParents2 : List Char :=
  "h1\x1fh\x1fmsg\x1fau\x1fd\x1fdi\x1fa b\x1frefs".data

/-- A line with nine delimiter-separated fields. -/
def lineNine : List Char :=
  "h1\x1fh\x1fmsg\x1fau\x1fd\x1fdi\x1fp1\x1frefs\x1fextra".data

/-- An invoker whose output trims to the numeral 42. -/
def countInvoker : Invoker := fun _ => Except.ok " 42 \n".data

/-- An invoker whose output does not parse as a number. -/
def badCountInvoker : Invoker := fun _ => Except.ok "abc\n".data

-- Claim theorems

/-- Claim C1, counterexample: with a mock invoker returning a line whose
message "hello" lacks the query "xyz", `search_commits` succeeds yet not
every returned entry's message contains the query case-insensitively — the
code applies no message filter of its own. -/
theorem C1_counterexample :
    Except.map (fun entries => entries.all (fun e => containsCI e.message "xyz".data))
      (search_commits mockInvoker "xyz" 5) = Except.ok false := by
  rfl

/-- Claim C1, amended: `search_commits(query, n)` performs no message
filtering on the parsed entries; it returns exactly the parse of the
invoker's output for the grep arguments (the case-insensitive filter is
delegated to the external tool via `--grep=query` and `-i`), so an entry's
message contains the query only insofar as the external tool guarantees
it. -/
theorem C1_amended_no_filter (run_git : Invoker) (query : String) (count : Nat) :
    search_commits run_git query count =
      Except.map parse_log_output
        (run_git ["log", "-" ++ toString count, "--format=" ++ LOG_FORMAT,
                  "--grep=" ++ query, "-i"]) := by
  simp only [search_commits]
  cases run_git ["log", "-" ++ toString count, "--format=" ++ LOG_FORMAT,
                 "--grep=" ++ query, "-i"] <;> rfl

/-- Claim C2, counterexample: the parser copies fields verbatim, so an
invoker output whose second field "QQ" is not a prefix of its first field
"Z" yields a record violating the claimed invariant. -/
theorem C2_counterexample :
    (parse_log_output prefixViolatingOutput).map
      (fun e => e.short_hash.isPrefixOf e.hash) = [false] := by
  decide

/-- Claim C2, amended: `hash` and `short_hash` are copied verbatim from the
line's 1st and 2nd delimited fields, so the prefix invariant holds exactly
when the invoker output satisfies it: if on every line of the output the
2nd field is a prefix of the 1st, then every parsed record's `short_hash`
is a prefix of its `hash`. -/
theorem C2_amended_prefix_conditional (output : List Char)
    (h : (rustLines output).all
        (fun line =>
          ((lineParts line).getD 1 []).isPrefixOf ((lineParts line).getD 0 [])) = true) :
    (parse_log_output output).all
      (fun e => e.short_hash.isPrefixOf e.hash) = true := by
  rw [List.all_eq_true] at h ⊢
  intro e he
  rw [parse_log_output, List.mem_filterMap] at he
  obtain ⟨line, hline, hpl⟩ := he
  have hEq := parseLine_some_eq hpl
  subst hEq
  exact h line hline

/-- Claim C2, amended, witness at the sample test line, whose short hash
"abc123d" is a prefix of the full hash. -/
theorem C2_amended_witness :
    (rustLines sampleInput).all
      (fun line =>
        ((lineParts line).getD 1 []).isPrefixOf ((lineParts line).getD 0 [])) = true ∧
    (parse_log_output sampleInput).all
      (fun e => e.short_hash.isPrefixOf e.hash) = true :=
  ⟨by decide, C2_amended_prefix_conditional sampleInput (by decide)⟩

/-- Claim C3: a line consisting solely of glyph-set characters (empty data
segment), or whose data segment splits into fewer than 8 delimiter-separated
fields, contributes no record to `parse_log_output` — `parseLine` is `none`,
a silent omission with no partial record. -/
theorem C3_malformed_line_drops (line : List Char)
    (h : line.all isGraphChar = true ∨ (lineParts line).length < 8) :
    parseLine line = none := by
  rcases h with h | h
  · have hd : line.dropWhile isGraphChar = [] := dropWhile_eq_nil_of_all h
    simp [parseLine, split_graph_and_data, hd]
  · by_cases h1 : (split_graph_and_data line).2.isEmpty = true
    · simp [parseLine, h1]
    · simp [parseLine, h1, h]

/-- Claim C3, witness at the glyph-only line "* | " and at a short data
line with a single field. -/
theorem C3_witness :
    ("* | ".data.all isGraphChar = true ∨ (lineParts "* | ".data).length < 8) ∧
    parseLine "* | ".data = none ∧
    (lineParts "abc".data).length < 8 ∧
    parseLine "abc".data = none :=
  ⟨Or.inl (by decide), C3_malformed_line_drops _ (Or.inl (by decide)),
   by decide, C3_malformed_line_drops _ (Or.inr (by decide))⟩

/-- Claim C4: for every line, the graph-prefix and data-segment returned by
`split_graph_and_data` rejoin to the original line; the graph-prefix
consists only of glyph-set characters, and the data-segment, when
non-empty, starts with a character outside the glyph set. -/
theorem C4_split_rejoin (line : List Char) :
    (split_graph_and_data line).1 ++ (split_graph_and_data line).2 = line ∧
    (split_graph_and_data line).1.all isGraphChar = true ∧
    ((split_graph_and_data line).2.take 1).all (fun c => !isGraphChar c) = true := by
  unfold split_graph_and_data
  exact ⟨List.takeWhile_append_dropWhile isGraphChar line,
         takeWhile_all line, dropWhile_head_not line⟩

/-- Claim C5: for every count at least 1 and every invoker,
`get_recent_commits(n)` is definitionally `get_log(n, 0, none)`; with the
same invoker both produce the same result. -/
theorem C5_recent_delegates (run_git : Invoker) (count : Nat) (_h : 1 ≤ count) :
    get_recent_commits run_git count = get_log run_git count 0 none := rfl

/-- Claim C5, witness at count 3 with the sample-output invoker. -/
theorem C5_witness :
    1 ≤ 3 ∧ get_recent_commits constInvoker 3 = get_log constInvoker 3 0 none :=
  ⟨by decide, C5_recent_delegates constInvoker 3 (by decide)⟩

/-- Claim C6: when the invoker reports a failure on every argument list,
each of the four query functions propagates that failure; the `Except.error`
result carries no entries, so no partial result is produced. -/
theorem C6_failure_propagates (run_git : Invoker) (e : String)
    (h : ∀ args, run_git args = Except.error e)
    (count skip : Nat) (branch : Option String) (query : String) :
    get_log run_git count skip branch = Except.error e ∧
    get_recent_commits run_git count = Except.error e ∧
    commit_count run_git = Except.error e ∧
    search_commits run_git query count = Except.error e := by
  refine ⟨?_, ?_, ?_, ?_⟩
  · cases branch <;> simp [get_log, h]
  · simp [get_recent_commits, get_log, h]
  · simp [commit_count, h]
  · simp [search_commits, h]

/-- Claim C6, witness with an always-failing invoker. -/
theorem C6_witness :
    get_log failInvoker 3 0 none = Except.error "fatal: not a git repository" ∧
    get_recent_commits failInvoker 3 = Except.error "fatal: not a git repository" ∧
    commit_count failInvoker = Except.error "fatal: not a git repository" ∧
    search_commits failInvoker "fix" 3 = Except.error "fatal: not a git repository" :=
  C6_failure_propagates failInvoker "fatal: not a git repository"
    (fun _ => rfl) 3 0 none "fix"

/-- Claim C7: on invoker success, if the trimmed output does not parse as a
number, `commit_count` returns 0 rather than a failure; if it parses as a
non-negative integer, `commit_count` returns that integer. -/
theorem C7_count_parse (run_git : Invoker) (out : List Char)
    (h : run_git ["rev-list", "--count", "HEAD"] = Except.ok out) :
    (parseUsize (rustTrim out) = none → commit_count run_git = Except.ok 0) ∧
    ∀ n, parseUsize (rustTrim out) = some n → commit_count run_git = Except.ok n := by
  constructor
  · intro hp
    simp [commit_count, h, hp]
  · intro n hp
    simp [commit_count, h, hp]

/-- Claim C7, witness: the output " 42 \n" yields 42, and the unparseable
output "abc\n" yields 0. -/
theorem C7_witness :
    commit_count countInvoker = Except.ok 42 ∧
    commit_count badCountInvoker = Except.ok 0 :=
  ⟨(C7_count_parse countInvoker " 42 \n".data rfl).2 42 (by decide),
   (C7_count_parse badCountInvoker "abc\n".data rfl).1 (by decide)⟩

/-- Claim C8: the parent decode splits the 7th field on whitespace into an
ordered list — the empty string gives the empty list and "a b" gives the
two-element list preserving order — both as a fact about `splitWhitespace`
and through `parseLine` on full 8-field lines. -/
theorem C8_parent_decode :
    splitWhitespace [] = [] ∧
    splitWhitespace "a b".data = ["a".data, "b".data] ∧
    (parseLine lineParents0).map CommitEntry.parents = some [] ∧
    (parseLine lineParents2).map CommitEntry.parents = some ["a".data, "b".data] := by
  refine ⟨rfl, rfl, rfl, rfl⟩

/-- Claim C9: on the sample test line, the parser yields exactly one record
with the stated `short_hash`, `message`, `author`, `refs`, `graph` and empty
parent list. -/
theorem C9_sample_line :
    (parse_log_output sampleInput).map
      (fun e => (e.short_hash, e.message, e.author, e.refs, e.graph, e.parents)) =
      [("abc123d".data, "feat: add login".data, "John".data,
        "HEAD -> main".data, "* ".data, [])] := by
  rfl

/-- Claim C10: a line whose data segment splits into strictly more than 8
fields still produces exactly one record; the record is assembled from
fields 1 through 8 only (`refs` is exactly the 8th field), so every field
beyond the 8th is discarded. -/
theorem C10_extra_fields (line : List Char)
    (h : 8 < (lineParts line).length) :
    parseLine line = some (mkEntry line) ∧
    (mkEntry line).refs = (lineParts line).getD 7 [] := by
  have hne : (split_graph_and_data line).2.isEmpty = false := by
    cases hd : (split_graph_and_data line).2 with
    | nil =>
      rw [lineParts, hd] at h
      simp [splitByP] at h
    | cons c t => simp
  have h8 : ¬ (lineParts line).length < 8 := by omega
  exact ⟨by simp [parseLine, hne, h8], rfl⟩

/-- Claim C10, witness at a nine-field line. -/
theorem C10_witness :
    8 < (lineParts lineNine).length ∧
    parseLine lineNine = some (mkEntry lineNine) ∧
    (mkEntry lineNine).refs = (lineParts lineNine).getD 7 [] :=
  ⟨by decide, (C10_extra_fields lineNine (by decide)).1,
   (C10_extra_fields lineNine (by decide)).2⟩
